import Mathlib

/-!
Verification development for the Compas2D repository (a 2D CAD sketching
tool).  The geometric kernel and the DXF codec are embedded shallowly:

* plane points are pairs of rationals (the Python sources compute with
  floats; all claims under scrutiny are exact-arithmetic statements, so ℚ
  is the faithful executable carrier, with ℝ used where square roots and
  arctangents genuinely appear);
* `core/arc.py` : three-point arc solver and radius-chord arc construction;
* `core/spline.py` : Bernstein-sum Bézier evaluation;
* `dxf_handler.py` : ACI color translation, the arc-angle normalization of
  the two DXF encoder profiles, and the entity decoder.
-/

namespace Compas2D

/-- Squared Euclidean distance of two rational plane points.  The source
(`core/arc.py`, `distance`) computes `((dx)**2 + (dy)**2) ** 0.5`; the
square root lives in `distance` below. -/
def dist_sq (p q : ℚ × ℚ) : ℚ :=
  (p.1 - q.1) ^ 2 + (p.2 - q.2) ^ 2

/-- Embedding of `distance(point1, point2)` from `core/arc.py` (lines
167-171): the Euclidean distance `((dx)**2 + (dy)**2) ** 0.5`. -/
noncomputable def distance (p q : ℚ × ℚ) : ℝ :=
  Real.sqrt ((dist_sq p q : ℚ) : ℝ)

/-- Two-argument arctangent with Python `math.atan2` semantics (range
(-π, π], `atan2 0 0 = 0`). -/
noncomputable def atan2 (y x : ℝ) : ℝ :=
  if 0 < x then Real.arctan (y / x)
  else if x < 0 ∧ 0 ≤ y then Real.arctan (y / x) + Real.pi
  else if x < 0 then Real.arctan (y / x) - Real.pi
  else if 0 < y then Real.pi / 2
  else if y < 0 then -(Real.pi / 2)
  else 0

/-- Embedding of Python `math.degrees`. -/
noncomputable def degrees (r : ℝ) : ℝ := r * 180 / Real.pi

/-- Embedding of Python `math.radians`. -/
noncomputable def radians (d : ℝ) : ℝ := d * Real.pi / 180

/-! ### Three-point arc solver (`core/arc.py`, `calculate_arc_three_points`) -/

/-- Determinant of the two perpendicular-bisector normal directions used by
`calculate_arc_three_points` (`core/arc.py` lines 64-68):
`norm1 = (p2.y - p1.y, p1.x - p2.x)`, `norm2 = (p3.y - p2.y, p2.x - p3.x)`,
`det = norm1.x * norm2.y - norm1.y * norm2.x`. -/
def arc_det (p1 p2 p3 : ℚ × ℚ) : ℚ :=
  (p2.2 - p1.2) * (p2.1 - p3.1) - (p1.1 - p2.1) * (p3.2 - p2.2)

/-- Circumcenter formula of `calculate_arc_three_points` (`core/arc.py`
lines 60-73): midpoints of P1P2 and P2P3, bisector normals, Cramer
parameter `t`, `center = mid1 + t * norm1`.  Pure rational arithmetic. -/
def arc_center (p1 p2 p3 : ℚ × ℚ) : ℚ × ℚ :=
  let mid1 : ℚ × ℚ := ((p1.1 + p2.1) / 2, (p1.2 + p2.2) / 2)
  let mid2 : ℚ × ℚ := ((p2.1 + p3.1) / 2, (p2.2 + p3.2) / 2)
  let norm1 : ℚ × ℚ := (p2.2 - p1.2, p1.1 - p2.1)
  let norm2 : ℚ × ℚ := (p3.2 - p2.2, p2.1 - p3.1)
  let det : ℚ := norm1.1 * norm2.2 - norm1.2 * norm2.1
  let t : ℚ := ((mid2.1 - mid1.1) * norm2.2 - (mid2.2 - mid1.2) * norm2.1) / det
  (mid1.1 + t * norm1.1, mid1.2 + t * norm1.2)

/-- Embedding of `calculate_arc_three_points(points)` from `core/arc.py`
(lines 53-82).  The Python function returns the 4-tuple
`(None, None, None, None)` when `abs(det) < 1e-6`, else
`(center, radius, start_angle, end_angle)` with
`radius = distance(center, p1)` and the two angles computed with
`math.degrees(atan2(...))`; failure is modelled as `none`. -/
noncomputable def calculate_arc_three_points (p1 p2 p3 : ℚ × ℚ) :
    Option ((ℚ × ℚ) × ℝ × ℝ × ℝ) :=
  if |arc_det p1 p2 p3| < 1 / 1000000 then none
  else
    let c := arc_center p1 p2 p3
    some (c, distance c p1,
      degrees (atan2 (((p1.2 - c.2 : ℚ) : ℝ)) (((p1.1 - c.1 : ℚ) : ℝ))),
      degrees (atan2 (((p3.2 - c.2 : ℚ) : ℝ)) (((p3.1 - c.1 : ℚ) : ℝ))))

/-! ### Radius-chord arc construction (`core/arc.py`, `draw_arc_radius_chord`) -/

/-- Chord angle of `draw_arc_radius_chord` (`core/arc.py` line 104):
`math.degrees(math.atan2(chord_end.y - center.y, chord_end.x - center.x))`. -/
noncomputable def chord_angle (center chord_end : ℚ × ℚ) : ℝ :=
  degrees (atan2 (((chord_end.2 - center.2 : ℚ) : ℝ)) (((chord_end.1 - center.1 : ℚ) : ℝ)))

/-- Angle pair produced by `draw_arc_radius_chord` (`core/arc.py` lines
103-121): `start_angle = chord_angle`, `end_angle = start_angle + 180`,
swapped when `start_angle > end_angle`.  The user-supplied radius is only
used for the (dead) `start_point` computation and the final rendering call,
never for the two angles, so it is not a parameter here. -/
noncomputable def draw_arc_radius_chord_angles (center chord_end : ℚ × ℚ) : ℝ × ℝ :=
  let start_angle := chord_angle center chord_end
  let end_angle := start_angle + 180
  if start_angle > end_angle then (end_angle, start_angle) else (start_angle, end_angle)

/-! ### Bézier evaluation (`core/spline.py`) -/

/-- Embedding of `binomial_coefficient(n, k)` from `core/spline.py` (lines
5-7): `factorial(n) // (factorial(k) * factorial(n - k))` with integer
(floor) division, which is exact for `k ≤ n`. -/
def binomial_coefficient (n k : ℕ) : ℕ :=
  n.factorial / (k.factorial * (n - k).factorial)

/-- Embedding of `bezier_point(t, points)` from `core/spline.py` (lines
9-18): the Bernstein sum over `i = 0..n`, `n = len(points) - 1`, of
`C(n,i) * (1-t)^(n-i) * t^i * points[i]`, accumulated separately in x and
y starting from `(0, 0)`.  Iteration over `i in range(n+1)` paired with
`points[i]` is rendered as a fold over the index-enumerated list. -/
def bezier_point (t : ℚ) (points : List (ℚ × ℚ)) : ℚ × ℚ :=
  let n := points.length - 1
  points.enum.foldl
    (fun acc ip =>
      let binom : ℚ := (binomial_coefficient n ip.1 : ℕ)
      let factor : ℚ := (1 - t) ^ (n - ip.1) * t ^ ip.1
      (acc.1 + binom * factor * ip.2.1, acc.2 + binom * factor * ip.2.2))
    (0, 0)

/-! ### ACI color translation (`dxf_handler.py`, lines 315-360) -/

/-- Fixed 10-entry basic palette of `convert_qcolor_to_aci`
(`dxf_handler.py` lines 328-332), in the dictionary's insertion order. -/
def standard_colors : List ((ℕ × ℕ × ℕ) × ℕ) :=
  [((0, 0, 0), 0), ((255, 0, 0), 1), ((255, 255, 0), 2), ((0, 255, 0), 3),
   ((0, 255, 255), 4), ((0, 0, 255), 5), ((255, 0, 255), 6), ((255, 255, 255), 7),
   ((128, 128, 128), 8), ((192, 192, 192), 9)]

/-- Squared Euclidean RGB distance.  The source compares
`math.sqrt((r-sr)**2 + (g-sg)**2 + (b-sb)**2)` values; the square root is
strictly monotone (and exact on these small integers in double precision),
so every comparison made by the loop coincides with the comparison of the
squares used here. -/
def color_dist_sq (a b : ℕ × ℕ × ℕ) : ℤ :=
  ((a.1 : ℤ) - b.1) ^ 2 + ((a.2.1 : ℤ) - b.2.1) ^ 2 + ((a.2.2 : ℤ) - b.2.2) ^ 2

/-- Fallback loop of `convert_qcolor_to_aci` (`dxf_handler.py` lines
335-342): `min_distance = inf`, `closest_index = 7`, update whenever the
distance to the next palette entry is strictly smaller.  The accumulator
keeps `(closest_index, min_distance)` with `none` standing for infinity. -/
def nearest_step (rgb : ℕ × ℕ × ℕ) (best : ℕ × Option ℤ) (e : (ℕ × ℕ × ℕ) × ℕ) :
    ℕ × Option ℤ :=
  let d := color_dist_sq rgb e.1
  match best.2 with
  | none => (e.2, some d)
  | some m => if d < m then (e.2, some d) else best

/-- Whole fallback loop: fold `nearest_step` over the palette starting from
`closest_index = 7`, `min_distance = ∞`. -/
def nearest_aci_fold (rgb : ℕ × ℕ × ℕ) (entries : List ((ℕ × ℕ × ℕ) × ℕ)) :
    ℕ × Option ℤ :=
  entries.foldl (nearest_step rgb) (7, none)

/-- Embedding of `convert_qcolor_to_aci(qcolor)` from `dxf_handler.py`
(lines 315-342): `None ↦ 256` (ByLayer sentinel); an exact palette match
returns that entry's index; otherwise the nearest-distance loop decides. -/
def convert_qcolor_to_aci (qcolor : Option (ℕ × ℕ × ℕ)) : ℕ :=
  match qcolor with
  | none => 256
  | some rgb =>
    match standard_colors.lookup rgb with
    | some idx => idx
    | none => (nearest_aci_fold rgb standard_colors).1

/-- Inverse 10-entry table `basic_aci_to_rgb` of `convert_aci_to_qcolor`
(`dxf_handler.py` lines 354-358). -/
def basic_aci_to_rgb : List (ℕ × (ℕ × ℕ × ℕ)) :=
  [(0, (0, 0, 0)), (1, (255, 0, 0)), (2, (255, 255, 0)), (3, (0, 255, 0)),
   (4, (0, 255, 255)), (5, (0, 0, 255)), (6, (255, 0, 255)), (7, (255, 255, 255)),
   (8, (128, 128, 128)), (9, (192, 192, 192))]

/-- Embedding of `convert_aci_to_qcolor(aci)` from `dxf_handler.py` (lines
344-360): `basic_aci_to_rgb.get(aci, (0, 0, 0))`, default black. -/
def convert_aci_to_qcolor (aci : ℕ) : ℕ × ℕ × ℕ :=
  (basic_aci_to_rgb.lookup aci).getD (0, 0, 0)

/-! ### DXF entity decoder (`dxf_handler.py`, lines 362-485) -/

/-- Result of the (LW)POLYLINE branch of `convert_dxf_to_shape`
(`dxf_handler.py` lines 446-461): either a normalized axis-aligned
rectangle (top-left corner, width, height) or a polygon point list. -/
inductive PolyShape where
  | rect (top_left : ℚ × ℚ) (width height : ℚ)
  | poly (points : List (ℚ × ℚ))
  deriving DecidableEq

/-- Perpendicularity test of one loop step of `is_rectangle`
(`dxf_handler.py` lines 476-484): the dot product of the consecutive edge
vectors `p2 - p1` and `p3 - p2` must not exceed the tolerance `1e-6` in
absolute value. -/
def perp_check (p1 p2 p3 : ℚ × ℚ) : Bool :=
  decide (|(p2.1 - p1.1) * (p3.1 - p2.1) + (p2.2 - p1.2) * (p3.2 - p2.2)| ≤ 1 / 1000000)

/-- Embedding of `is_rectangle(points, tolerance=1e-6)` from
`dxf_handler.py` (lines 472-485): exactly four points, and the loop over
`i = 0..3` checks `points[i], points[(i+1)%4], points[(i+2)%4]`. -/
def is_rectangle (points : List (ℚ × ℚ)) : Bool :=
  match points with
  | [p0, p1, p2, p3] =>
    perp_check p0 p1 p2 && perp_check p1 p2 p3 && perp_check p2 p3 p0 && perp_check p3 p0 p1
  | _ => false

/-- Minimum of the x coordinates (Python `min(p.x() for p in points)`; the
callers only use it on nonempty lists, `0` is a junk value for `[]`). -/
def min_x (points : List (ℚ × ℚ)) : ℚ :=
  match points.map Prod.fst with
  | [] => 0
  | x :: xs => xs.foldl min x

/-- Minimum of the y coordinates (Python `min(p.y() for p in points)`). -/
def min_y (points : List (ℚ × ℚ)) : ℚ :=
  match points.map Prod.snd with
  | [] => 0
  | y :: ys => ys.foldl min y

/-- Maximum of the x coordinates (Python `max(p.x() for p in points)`). -/
def max_x (points : List (ℚ × ℚ)) : ℚ :=
  match points.map Prod.fst with
  | [] => 0
  | x :: xs => xs.foldl max x

/-- Maximum of the y coordinates (Python `max(p.y() for p in points)`). -/
def max_y (points : List (ℚ × ℚ)) : ℚ :=
  match points.map Prod.snd with
  | [] => 0
  | y :: ys => ys.foldl max y

/-- Closing-vertex deduplication of `convert_dxf_to_shape`
(`dxf_handler.py` line 444-445): when the polyline is closed, has more than
one vertex, and the first equals the last, the last vertex is dropped. -/
def dedup_closing_vertex (points : List (ℚ × ℚ)) (closed : Bool) : List (ℚ × ℚ) :=
  if closed && decide (1 < points.length) && decide (points.head? = points.getLast?) then
    points.dropLast
  else points

/-- Embedding of the (LW)POLYLINE branch of `convert_dxf_to_shape`
(`dxf_handler.py` lines 435-461): fewer than two vertices yield nothing;
after closing-vertex deduplication, four vertices passing `is_rectangle`
yield the normalized rectangle `QRectF(min_x, min_y, max_x - min_x,
max_y - min_y)`; every other vertex list yields a polygon. -/
def polyline_to_shape (points : List (ℚ × ℚ)) (closed : Bool) : Option PolyShape :=
  if points.length < 2 then none
  else
    let pts := dedup_closing_vertex points closed
    if pts.length = 4 && is_rectangle pts then
      some (.rect (min_x pts, min_y pts) (max_x pts - min_x pts) (max_y pts - min_y pts))
    else some (.poly pts)

/-- Shape model produced by the decoder (`dxf_handler.py` lines 389-470).
Style attributes (color, line type, thickness) are extracted by
`extract_dxf_attributes` independently of the geometry and are not part of
the claims under scrutiny, so only the geometric payload is carried.  The
ARC branch stores `ArcByRadiusChord(center, radius_point, chord_point)`
whose two boundary points involve cosines, hence the real fields. -/
inductive Shape where
  | line (start_point end_point : ℚ × ℚ)
  | circle (center : ℚ × ℚ) (radius : ℚ)
  | arcByRadiusChord (center : ℚ × ℚ) (radius_point chord_point : ℝ × ℝ)
  | rectangle (top_left : ℚ × ℚ) (width height : ℚ)
  | polygon (points : List (ℚ × ℚ))
  | bezierSpline (control_points : List (ℚ × ℚ))

/-- DXF model-space entity as the decoder consumes it: the supported
entity types LINE, CIRCLE, ARC, LWPOLYLINE, POLYLINE, SPLINE, and `other`
for every remaining `dxftype()` string. -/
inductive DxfEntity where
  | lineEnt (start_point end_point : ℚ × ℚ)
  | circleEnt (center : ℚ × ℚ) (radius : ℚ)
  | arcEnt (center : ℚ × ℚ) (radius start_angle end_angle : ℚ)
  | lwpolylineEnt (vertices : List (ℚ × ℚ)) (closed : Bool)
  | polylineEnt (vertices : List (ℚ × ℚ)) (is_closed : Bool)
  | splineEnt (control_points : List (ℚ × ℚ))
  | other (dxftype : String)

/-- Wrapper turning the polyline-branch result into a `Shape`. -/
def polyshape_to_shape : PolyShape → Shape
  | .rect tl w h => .rectangle tl w h
  | .poly pts => .polygon pts

/-- Embedding of `convert_dxf_to_shape(entity, canvas)` from
`dxf_handler.py` (lines 389-470): LINE→Line, CIRCLE→Circle,
ARC→ArcByRadiusChord with the two angle-derived boundary points,
(LW)POLYLINE→Rectangle/Polygon via the polyline branch, SPLINE→
BezierSpline with the control points verbatim, anything else→`none`. -/
noncomputable def convert_dxf_to_shape (entity : DxfEntity) : Option Shape :=
  match entity with
  | .lineEnt s e => some (.line s e)
  | .circleEnt c r => some (.circle c r)
  | .arcEnt c r sa ea =>
    let start_rad := radians ((sa : ℚ) : ℝ)
    let end_rad := radians ((ea : ℚ) : ℝ)
    some (.arcByRadiusChord c
      (((c.1 : ℚ) : ℝ) + ((r : ℚ) : ℝ) * Real.cos start_rad,
       ((c.2 : ℚ) : ℝ) + ((r : ℚ) : ℝ) * Real.sin start_rad)
      (((c.1 : ℚ) : ℝ) + ((r : ℚ) : ℝ) * Real.cos end_rad,
       ((c.2 : ℚ) : ℝ) + ((r : ℚ) : ℝ) * Real.sin end_rad))
  | .lwpolylineEnt vs closed => (polyline_to_shape vs closed).map polyshape_to_shape
  | .polylineEnt vs closed => (polyline_to_shape vs closed).map polyshape_to_shape
  | .splineEnt cps => some (.bezierSpline cps)
  | .other _ => none

/-- Embedding of `read_from_dxf(filename, canvas)` from `dxf_handler.py`
(lines 362-387): reading and parsing the file is a fallible step (modelled
as `Except`); on failure both handlers return the empty list, on success
the entity walk keeps every entity the decoder converts. -/
noncomputable def read_from_dxf (parsed : Except String (List DxfEntity)) : List Shape :=
  match parsed with
  | .error _ => []
  | .ok entities => entities.filterMap convert_dxf_to_shape

/-! ### DXF encoder arc-angle normalization (`dxf_handler.py`,
lines 68-98 in `save_to_dxf` and lines 176-206 in `save_to_dxf_advanced`;
the two profiles contain the identical normalization text) -/

/-- Python float modulo: `a % b = a - b * floor(a / b)` (sign of the
divisor). -/
noncomputable def pymod (a b : ℝ) : ℝ := a - b * ⌊a / b⌋

/-- Arc-angle normalization shared by both encoder profiles
(`dxf_handler.py` lines 71-76 and 179-184):
`start_angle_deg = start_angle % 360`;
`span_angle = span_angle % 360 if span_angle >= 0 else (span_angle % 360) + 360`;
`end_angle_deg = (start_angle_deg + span_angle) % 360`; add 360 to the end
angle when it is strictly below the start angle. -/
noncomputable def normalize_arc_angles (start_angle span_angle : ℝ) : ℝ × ℝ :=
  let start_angle_deg := pymod start_angle 360
  let span := if 0 ≤ span_angle then pymod span_angle 360 else pymod span_angle 360 + 360
  let end_angle_deg := pymod (start_angle_deg + span) 360
  if end_angle_deg < start_angle_deg then (start_angle_deg, end_angle_deg + 360)
  else (start_angle_deg, end_angle_deg)

/-- Modelled from the spec: the classes `ArcByThreePoints` and
`ArcByRadiusChord` whose `calculate_arc` feeds the encoders are imported by
`dxf_handler.py` from `core.arc` but are absent from the sources.  Per the
spec (§4.1), a three-point arc's span angle is normalized to [0, 360) and
re-expressed as the complementary arc when above 180°, and a radius-chord
arc spans exactly 180°, so every encoded arc shape has a span in
(0, 180]. -/
def spec_arc_span (span : ℝ) : Prop := 0 < span ∧ span ≤ 180

/-! ## Theorems -/

/-- C2: the three-point solver fails (returns no geometry at all) exactly
when the absolute value of the bisector-normal determinant is below the
fixed tolerance 1e-6, the collinear case. -/
theorem calculate_arc_none_iff_det_small (p1 p2 p3 : ℚ × ℚ) :
    calculate_arc_three_points p1 p2 p3 = none ↔ |arc_det p1 p2 p3| < 1 / 1000000 := by
  unfold calculate_arc_three_points
  split_ifs with h
  · simpa using h
  · simpa using h

/-- C10: a `None` color is converted to the ACI value 256 (the DXF ByLayer
sentinel), which is neither a palette index nor the default index 7. -/
theorem convert_qcolor_to_aci_none :
    convert_qcolor_to_aci none = 256 ∧
      256 ∉ standard_colors.map Prod.snd ∧ (256 : ℕ) ≠ 7 := by
  decide

/-- C9: for two control points the Bernstein-sum Bézier evaluator is the
linear interpolation `P0 + t * (P1 - P0)`, for every rational parameter. -/
theorem bezier_point_pair_is_lerp (t : ℚ) (p0 p1 : ℚ × ℚ) :
    bezier_point t [p0, p1] = (p0.1 + t * (p1.1 - p0.1), p0.2 + t * (p1.2 - p0.2)) := by
  simp only [bezier_point, List.enum, List.enumFrom, List.foldl, List.length]
  norm_num [binomial_coefficient, Nat.factorial]
  constructor <;> ring

/-- Helper: the swap branch of `draw_arc_radius_chord` is dead because the
end angle is always the start angle plus 180. -/
theorem draw_arc_radius_chord_angles_eq (center chord_end : ℚ × ℚ) :
    draw_arc_radius_chord_angles center chord_end =
      (chord_angle center chord_end, chord_angle center chord_end + 180) := by
  unfold draw_arc_radius_chord_angles
  rw [if_neg]
  push_neg
  linarith

/-- C3 counterexample: for center (0,0), chord end (10,0) the chord angle
is 0 and the produced pair is (0, 180) — the arc starts at the chord
direction and is centered on angle 90, not the pair (-90, 90) centered on
the chord direction that the claim predicts. -/
theorem draw_arc_radius_chord_not_chord_centered :
    chord_angle ((0 : ℚ), (0 : ℚ)) ((10 : ℚ), (0 : ℚ)) = 0 ∧
    draw_arc_radius_chord_angles ((0 : ℚ), (0 : ℚ)) ((10 : ℚ), (0 : ℚ)) = (0, 180) ∧
    draw_arc_radius_chord_angles ((0 : ℚ), (0 : ℚ)) ((10 : ℚ), (0 : ℚ)) ≠
      (chord_angle ((0 : ℚ), (0 : ℚ)) ((10 : ℚ), (0 : ℚ)) - 90,
       chord_angle ((0 : ℚ), (0 : ℚ)) ((10 : ℚ), (0 : ℚ)) + 90) := by
  have ha : chord_angle ((0 : ℚ), (0 : ℚ)) ((10 : ℚ), (0 : ℚ)) = 0 := by
    unfold chord_angle atan2 degrees
    norm_num
  refine ⟨ha, ?_, ?_⟩
  · rw [draw_arc_radius_chord_angles_eq, ha]
    norm_num
  · rw [draw_arc_radius_chord_angles_eq, ha]
    simp only [Prod.mk.injEq, ne_eq, not_and]
    intro h
    norm_num at h

/-- C3 amended: the radius-chord construction produces an arc of exactly
180 degrees that starts at the chord angle: start = chordAngle and
end = chordAngle + 180 (so the half-circle is centered on
chordAngle + 90, not on the chord direction), for every center and chord
end and independently of the accepted radius. -/
theorem draw_arc_radius_chord_half_circle (center chord_end : ℚ × ℚ) :
    draw_arc_radius_chord_angles center chord_end =
      (chord_angle center chord_end, chord_angle center chord_end + 180) ∧
    (draw_arc_radius_chord_angles center chord_end).2 -
      (draw_arc_radius_chord_angles center chord_end).1 = 180 := by
  refine ⟨draw_arc_radius_chord_angles_eq center chord_end, ?_⟩
  rw [draw_arc_radius_chord_angles_eq]
  ring

/-- Helper: closing-vertex deduplication drops at most the final vertex. -/
theorem dedup_closing_vertex_length (points : List (ℚ × ℚ)) (closed : Bool) :
    (dedup_closing_vertex points closed).length = points.length ∨
      (dedup_closing_vertex points closed).length = points.length - 1 := by
  unfold dedup_closing_vertex
  split
  · right; simp [List.length_dropLast]
  · left; rfl

/-- Helper: no deduplication happens on an open polyline. -/
theorem dedup_closing_vertex_open (points : List (ℚ × ℚ)) :
    dedup_closing_vertex points false = points := by
  simp [dedup_closing_vertex]

/-- C7 counterexample: a two-vertex open (LW)POLYLINE is decoded to a
Polygon with only two points, violating the claimed ≥3 lower bound. -/
theorem polyline_to_shape_two_point_polygon :
    polyline_to_shape [((0 : ℚ), (0 : ℚ)), (1, 1)] false =
      some (.poly [((0 : ℚ), (0 : ℚ)), (1, 1)]) ∧
    ¬(3 ≤ ([((0 : ℚ), (0 : ℚ)), (1, 1)] : List (ℚ × ℚ)).length) := by
  exact ⟨rfl, by decide⟩

/-- C7 amended: every Polygon the decoder returns from a (LW)POLYLINE has
at least one point, and at least two when the polyline is open (the closed
case can drop one duplicated closing vertex from a two-vertex list); the
claimed ≥3 bound does not hold. -/
theorem polyline_to_shape_polygon_lower_bound (points : List (ℚ × ℚ)) (closed : Bool)
    (q : List (ℚ × ℚ)) (h : polyline_to_shape points closed = some (.poly q)) :
    1 ≤ q.length ∧ (closed = false → 2 ≤ q.length) := by
  unfold polyline_to_shape at h
  by_cases hlen : points.length < 2
  · simp [hlen] at h
  · rw [if_neg hlen] at h
    by_cases hrect :
        (decide ((dedup_closing_vertex points closed).length = 4) &&
          is_rectangle (dedup_closing_vertex points closed)) = true
    · rw [if_pos hrect] at h
      simp at h
    · rw [if_neg hrect] at h
      have hq : q = dedup_closing_vertex points closed := by
        simpa [eq_comm] using h
      subst hq
      constructor
      · rcases dedup_closing_vertex_length points closed with h1 | h1 <;> omega
      · intro hc
        subst hc
        rw [dedup_closing_vertex_open]
        omega

/-- C7 witness: the amended bound applied to the two-vertex open polyline. -/
theorem polyline_to_shape_polygon_lower_bound_witness :
    polyline_to_shape [((0 : ℚ), (0 : ℚ)), (1, 1)] false =
      some (.poly [((0 : ℚ), (0 : ℚ)), (1, 1)]) ∧
    (1 ≤ ([((0 : ℚ), (0 : ℚ)), (1, 1)] : List (ℚ × ℚ)).length ∧
      (false = false → 2 ≤ ([((0 : ℚ), (0 : ℚ)), (1, 1)] : List (ℚ × ℚ)).length)) :=
  ⟨rfl, polyline_to_shape_polygon_lower_bound [((0 : ℚ), (0 : ℚ)), (1, 1)] false
    [((0 : ℚ), (0 : ℚ)), (1, 1)] rfl⟩

/-- C8: the file-level reader reports a soft failure (empty shape list) on
every malformed input, and an entity of any unsupported type contributes
nothing while the walk over the remaining entities continues unchanged. -/
theorem read_from_dxf_soft_failure :
    (∀ msg : String, read_from_dxf (.error msg) = []) ∧
    (∀ ty : String, convert_dxf_to_shape (.other ty) = none) ∧
    (∀ (pre post : List DxfEntity) (ty : String),
      read_from_dxf (.ok (pre ++ DxfEntity.other ty :: post)) =
        read_from_dxf (.ok (pre ++ post))) := by
  refine ⟨fun _ => rfl, fun _ => rfl, fun pre post ty => ?_⟩
  unfold read_from_dxf
  simp [List.filterMap_append, List.filterMap_cons, convert_dxf_to_shape]

/-- C6: a decoded (LW)POLYLINE whose deduplicated vertex list has exactly
four points is returned as a Rectangle with top-left at the coordinate-wise
minimum and width/height equal to the coordinate ranges when all
consecutive edges are perpendicular within 1e-6, and as a Polygon
otherwise. -/
theorem polyline_rectangle_detection (points : List (ℚ × ℚ)) (closed : Bool)
    (h4 : (dedup_closing_vertex points closed).length = 4) :
    (is_rectangle (dedup_closing_vertex points closed) = true →
      polyline_to_shape points closed = some (.rect
        (min_x (dedup_closing_vertex points closed), min_y (dedup_closing_vertex points closed))
        (max_x (dedup_closing_vertex points closed) - min_x (dedup_closing_vertex points closed))
        (max_y (dedup_closing_vertex points closed) - min_y (dedup_closing_vertex points closed)))) ∧
    (is_rectangle (dedup_closing_vertex points closed) = false →
      polyline_to_shape points closed = some (.poly (dedup_closing_vertex points closed))) := by
  have hlen : ¬ points.length < 2 := by
    rcases dedup_closing_vertex_length points closed with h | h <;> omega
  constructor
  · intro hrect
    unfold polyline_to_shape
    rw [if_neg hlen, if_pos]
    simp [h4, hrect]
  · intro hrect
    unfold polyline_to_shape
    rw [if_neg hlen, if_neg]
    simp [hrect]

/-- C6 witness: the closed 4-vertex polyline (0,0),(4,0),(4,2),(0,2)
decodes to the Rectangle with top-left (0,0), width 4, height 2. -/
theorem polyline_rectangle_detection_witness :
    (dedup_closing_vertex [((0 : ℚ), (0 : ℚ)), (4, 0), (4, 2), (0, 2)] true).length = 4 ∧
    is_rectangle (dedup_closing_vertex [((0 : ℚ), (0 : ℚ)), (4, 0), (4, 2), (0, 2)] true) = true ∧
    polyline_to_shape [((0 : ℚ), (0 : ℚ)), (4, 0), (4, 2), (0, 2)] true =
      some (.rect ((0 : ℚ), (0 : ℚ)) 4 2) := by
  have hd : dedup_closing_vertex [((0 : ℚ), (0 : ℚ)), (4, 0), (4, 2), (0, 2)] true =
      [((0 : ℚ), (0 : ℚ)), (4, 0), (4, 2), (0, 2)] := rfl
  have h4 : (dedup_closing_vertex [((0 : ℚ), (0 : ℚ)), (4, 0), (4, 2), (0, 2)] true).length = 4 :=
    rfl
  have hrect : is_rectangle
      (dedup_closing_vertex [((0 : ℚ), (0 : ℚ)), (4, 0), (4, 2), (0, 2)] true) = true := by
    rw [hd]
    norm_num [is_rectangle, perp_check]
  have h := (polyline_rectangle_detection
    [((0 : ℚ), (0 : ℚ)), (4, 0), (4, 2), (0, 2)] true h4).1 hrect
  refine ⟨h4, hrect, ?_⟩
  rw [h, hd]
  norm_num [min_x, min_y, max_x, max_y, min_def, max_def]

/-- Helper: minimality invariant of the fallback loop once the accumulator
holds a finite distance: the fold result still holds a finite distance not
above the incoming one nor above any entry of the remaining list, and its
index comes either from the incoming accumulator or from some entry whose
distance it carries. -/
theorem nearest_fold_some_spec (rgb : ℕ × ℕ × ℕ) :
    ∀ (entries : List ((ℕ × ℕ × ℕ) × ℕ)) (i : ℕ) (m : ℤ),
      ∃ j μ, entries.foldl (nearest_step rgb) (i, some m) = (j, some μ) ∧ μ ≤ m ∧
        (∀ e2 ∈ entries, μ ≤ color_dist_sq rgb e2.1) ∧
        ((μ = m ∧ j = i) ∨ ∃ e2 ∈ entries, j = e2.2 ∧ μ = color_dist_sq rgb e2.1) := by
  intro entries
  induction entries with
  | nil =>
    intro i m
    exact ⟨i, m, rfl, le_refl m, by simp, Or.inl ⟨rfl, rfl⟩⟩
  | cons e rest ih =>
    intro i m
    by_cases hd : color_dist_sq rgb e.1 < m
    · have hstep : nearest_step rgb (i, some m) e = (e.2, some (color_dist_sq rgb e.1)) := by
        simp [nearest_step, hd]
      obtain ⟨j, μ, hfold, hle, hall, horig⟩ := ih e.2 (color_dist_sq rgb e.1)
      refine ⟨j, μ, ?_, by linarith, ?_, ?_⟩
      · rw [List.foldl_cons, hstep]; exact hfold
      · intro e2 he2
        rcases List.mem_cons.mp he2 with rfl | hmem
        · exact hle
        · exact hall e2 hmem
      · rcases horig with ⟨hμ, hj⟩ | ⟨e2, hmem, hj, hμ⟩
        · exact Or.inr ⟨e, List.mem_cons_self e rest, hj, hμ⟩
        · exact Or.inr ⟨e2, List.mem_cons_of_mem e hmem, hj, hμ⟩
    · have hstep : nearest_step rgb (i, some m) e = (i, some m) := by
        simp [nearest_step, hd]
      obtain ⟨j, μ, hfold, hle, hall, horig⟩ := ih i m
      push_neg at hd
      refine ⟨j, μ, ?_, hle, ?_, ?_⟩
      · rw [List.foldl_cons, hstep]; exact hfold
      · intro e2 he2
        rcases List.mem_cons.mp he2 with rfl | hmem
        · exact le_trans hle hd
        · exact hall e2 hmem
      · rcases horig with h1 | ⟨e2, hmem, hj, hμ⟩
        · exact Or.inl h1
        · exact Or.inr ⟨e2, List.mem_cons_of_mem e hmem, hj, hμ⟩

/-- Helper: over a nonempty palette, the fallback loop returns the index of
an entry at minimal squared (hence minimal Euclidean) RGB distance. -/
theorem nearest_aci_fold_min (rgb : ℕ × ℕ × ℕ) (first : (ℕ × ℕ × ℕ) × ℕ)
    (rest : List ((ℕ × ℕ × ℕ) × ℕ)) :
    ∃ e ∈ first :: rest, (nearest_aci_fold rgb (first :: rest)).1 = e.2 ∧
      ∀ e2 ∈ first :: rest, color_dist_sq rgb e.1 ≤ color_dist_sq rgb e2.1 := by
  unfold nearest_aci_fold
  rw [List.foldl_cons]
  have hstep : nearest_step rgb (7, none) first = (first.2, some (color_dist_sq rgb first.1)) := by
    simp [nearest_step]
  rw [hstep]
  obtain ⟨j, μ, hfold, hle, hall, horig⟩ :=
    nearest_fold_some_spec rgb rest first.2 (color_dist_sq rgb first.1)
  rcases horig with ⟨hμ, hj⟩ | ⟨e2, hmem, hj, hμ⟩
  · refine ⟨first, List.mem_cons_self first rest, by rw [hfold]; exact hj, ?_⟩
    intro e2 he2
    rcases List.mem_cons.mp he2 with rfl | hmem
    · exact le_refl _
    · rw [← hμ]; exact hall e2 hmem
  · refine ⟨e2, List.mem_cons_of_mem first hmem, by rw [hfold]; exact hj, ?_⟩
    intro e3 he3
    rcases List.mem_cons.mp he3 with rfl | hmem3
    · rw [← hμ]; exact hle
    · rw [← hμ]; exact hall e3 hmem3

/-- C5: every entry of the fixed 10-entry palette round-trips (its RGB
triple maps to its ACI index and back), and every RGB triple without an
exact palette match is sent to the index of a palette entry at minimal
Euclidean RGB distance (squared distances compare identically). -/
theorem convert_qcolor_aci_palette :
    (∀ e ∈ standard_colors,
        convert_qcolor_to_aci (some e.1) = e.2 ∧ convert_aci_to_qcolor e.2 = e.1) ∧
    (∀ rgb : ℕ × ℕ × ℕ, standard_colors.lookup rgb = none →
      ∃ e ∈ standard_colors, convert_qcolor_to_aci (some rgb) = e.2 ∧
        ∀ e2 ∈ standard_colors, color_dist_sq rgb e.1 ≤ color_dist_sq rgb e2.1) := by
  constructor
  · decide
  · intro rgb hlk
    have hconv : convert_qcolor_to_aci (some rgb) = (nearest_aci_fold rgb standard_colors).1 := by
      simp [convert_qcolor_to_aci, hlk]
    rw [hconv]
    exact nearest_aci_fold_min rgb _ _

/-- C5 witness: red (255,0,0) round-trips through ACI index 1 both ways,
and the off-palette triple (10,10,10) is sent to a minimal-distance
palette index. -/
theorem convert_qcolor_aci_palette_witness :
    (((255, 0, 0), 1) ∈ standard_colors ∧
      convert_qcolor_to_aci (some (((255, 0, 0), 1) : (ℕ × ℕ × ℕ) × ℕ).1) =
        (((255, 0, 0), 1) : (ℕ × ℕ × ℕ) × ℕ).2 ∧
      convert_aci_to_qcolor (((255, 0, 0), 1) : (ℕ × ℕ × ℕ) × ℕ).2 =
        (((255, 0, 0), 1) : (ℕ × ℕ × ℕ) × ℕ).1) ∧
    (standard_colors.lookup ((10 : ℕ), (10 : ℕ), (10 : ℕ)) = none ∧
      ∃ e ∈ standard_colors,
        convert_qcolor_to_aci (some ((10 : ℕ), (10 : ℕ), (10 : ℕ))) = e.2 ∧
        ∀ e2 ∈ standard_colors,
          color_dist_sq ((10 : ℕ), (10 : ℕ), (10 : ℕ)) e.1 ≤
            color_dist_sq ((10 : ℕ), (10 : ℕ), (10 : ℕ)) e2.1) :=
  ⟨⟨by decide, convert_qcolor_aci_palette.1 ((255, 0, 0), 1) (by decide)⟩,
   by decide, convert_qcolor_aci_palette.2 ((10 : ℕ), (10 : ℕ), (10 : ℕ)) (by decide)⟩

/-! ### Three-point solver: equidistance (C1) -/

/-- Helper: whenever the bisector-normal determinant does not vanish, the
computed center has equal squared distances to all three input points
(the exact-arithmetic circumcenter property). -/
theorem arc_center_equidistant_sq (p1 p2 p3 : ℚ × ℚ) (h : arc_det p1 p2 p3 ≠ 0) :
    dist_sq (arc_center p1 p2 p3) p1 = dist_sq (arc_center p1 p2 p3) p2 ∧
    dist_sq (arc_center p1 p2 p3) p2 = dist_sq (arc_center p1 p2 p3) p3 := by
  obtain ⟨x1, y1⟩ := p1
  obtain ⟨x2, y2⟩ := p2
  obtain ⟨x3, y3⟩ := p3
  simp only [arc_det] at h
  simp only [arc_center, dist_sq]
  constructor <;> (field_simp; ring)

/-- C1: when the bisector-normal determinant is at least 1e-6 in absolute
value, the solver succeeds and returns the computed center, whose distance
to each of the three points is one common value, together with a radius
equal to that common distance |center - P1|. -/
theorem calculate_arc_equidistant (p1 p2 p3 : ℚ × ℚ)
    (h : 1 / 1000000 ≤ |arc_det p1 p2 p3|) :
    ∃ sa ea, calculate_arc_three_points p1 p2 p3 =
        some (arc_center p1 p2 p3, distance (arc_center p1 p2 p3) p1, sa, ea) ∧
      distance (arc_center p1 p2 p3) p1 = distance (arc_center p1 p2 p3) p2 ∧
      distance (arc_center p1 p2 p3) p2 = distance (arc_center p1 p2 p3) p3 := by
  have hdet : arc_det p1 p2 p3 ≠ 0 := by
    intro h0
    rw [h0] at h
    norm_num at h
  have hnlt : ¬ |arc_det p1 p2 p3| < 1 / 1000000 := not_lt.mpr h
  refine ⟨degrees (atan2 (((p1.2 - (arc_center p1 p2 p3).2 : ℚ) : ℝ))
      (((p1.1 - (arc_center p1 p2 p3).1 : ℚ) : ℝ))),
    degrees (atan2 (((p3.2 - (arc_center p1 p2 p3).2 : ℚ) : ℝ))
      (((p3.1 - (arc_center p1 p2 p3).1 : ℚ) : ℝ))), ?_, ?_, ?_⟩
  · unfold calculate_arc_three_points
    rw [if_neg hnlt]
  · unfold distance
    rw [(arc_center_equidistant_sq p1 p2 p3 hdet).1]
  · unfold distance
    rw [(arc_center_equidistant_sq p1 p2 p3 hdet).2]

/-- C1 witness: the solver applied to (0,0), (2,0), (0,2), whose
determinant is 4. -/
theorem calculate_arc_equidistant_witness :
    (1 / 1000000 ≤ |arc_det ((0 : ℚ), (0 : ℚ)) ((2 : ℚ), (0 : ℚ)) ((0 : ℚ), (2 : ℚ))|) ∧
    (∃ sa ea, calculate_arc_three_points ((0 : ℚ), (0 : ℚ)) ((2 : ℚ), (0 : ℚ)) ((0 : ℚ), (2 : ℚ)) =
        some (arc_center ((0 : ℚ), (0 : ℚ)) ((2 : ℚ), (0 : ℚ)) ((0 : ℚ), (2 : ℚ)),
          distance (arc_center ((0 : ℚ), (0 : ℚ)) ((2 : ℚ), (0 : ℚ)) ((0 : ℚ), (2 : ℚ)))
            ((0 : ℚ), (0 : ℚ)), sa, ea) ∧
      distance (arc_center ((0 : ℚ), (0 : ℚ)) ((2 : ℚ), (0 : ℚ)) ((0 : ℚ), (2 : ℚ)))
          ((0 : ℚ), (0 : ℚ)) =
        distance (arc_center ((0 : ℚ), (0 : ℚ)) ((2 : ℚ), (0 : ℚ)) ((0 : ℚ), (2 : ℚ)))
          ((2 : ℚ), (0 : ℚ)) ∧
      distance (arc_center ((0 : ℚ), (0 : ℚ)) ((2 : ℚ), (0 : ℚ)) ((0 : ℚ), (2 : ℚ)))
          ((2 : ℚ), (0 : ℚ)) =
        distance (arc_center ((0 : ℚ), (0 : ℚ)) ((2 : ℚ), (0 : ℚ)) ((0 : ℚ), (2 : ℚ)))
          ((0 : ℚ), (2 : ℚ))) :=
  ⟨by norm_num [arc_det], calculate_arc_equidistant _ _ _ (by norm_num [arc_det])⟩

/-! ### Encoder arc-angle normalization (C4) -/

/-- Helper: Python float modulo by a positive divisor is nonnegative. -/
theorem pymod_nonneg (a b : ℝ) (hb : 0 < b) : 0 ≤ pymod a b := by
  have hb' : b ≠ 0 := ne_of_gt hb
  have key : pymod a b = b * Int.fract (a / b) := by
    unfold pymod
    rw [show Int.fract (a / b) = a / b - ⌊a / b⌋ from rfl]
    field_simp
  rw [key]
  exact mul_nonneg hb.le (Int.fract_nonneg _)

/-- Helper: Python float modulo by a positive divisor is below the
divisor. -/
theorem pymod_lt (a b : ℝ) (hb : 0 < b) : pymod a b < b := by
  have hb' : b ≠ 0 := ne_of_gt hb
  have key : pymod a b = b * Int.fract (a / b) := by
    unfold pymod
    rw [show Int.fract (a / b) = a / b - ⌊a / b⌋ from rfl]
    field_simp
  rw [key]
  calc b * Int.fract (a / b) < b * 1 :=
        (mul_lt_mul_left hb).mpr (Int.fract_lt_one _)
    _ = b := mul_one b

/-- Helper: modulo is the identity on [0, b). -/
theorem pymod_eq_self (a b : ℝ) (hb : 0 < b) (h0 : 0 ≤ a) (hab : a < b) :
    pymod a b = a := by
  unfold pymod
  have h1 : ⌊a / b⌋ = 0 := by
    rw [Int.floor_eq_zero_iff]
    constructor
    · exact div_nonneg h0 hb.le
    · exact (div_lt_one hb).mpr hab
  rw [h1]
  simp

/-- Helper: modulo subtracts one period on [b, 2b). -/
theorem pymod_eq_sub (a b : ℝ) (hb : 0 < b) (h0 : b ≤ a) (hab : a < 2 * b) :
    pymod a b = a - b := by
  unfold pymod
  have h1 : ⌊a / b⌋ = 1 := by
    rw [Int.floor_eq_iff]
    constructor
    · push_cast
      exact (one_le_div hb).mpr h0
    · push_cast
      rw [div_lt_iff₀ hb]
      linarith
  rw [h1]
  push_cast
  ring

/-- C4: for every start angle and every span in the range (0, 180] that the
arc shapes feed the encoders, the emitted pair is
(start mod 360, naive end + 360 when the naive end is at most the start,
else the naive end), and the emitted end angle strictly exceeds the
emitted start angle, so the exported arc sweeps counter-clockwise.  Both
encoder profiles contain the identical normalization. -/
theorem normalize_arc_angles_ccw (start_angle span_angle : ℝ)
    (h : spec_arc_span span_angle) :
    normalize_arc_angles start_angle span_angle =
      (pymod start_angle 360,
        if pymod (pymod start_angle 360 + span_angle) 360 ≤ pymod start_angle 360
        then pymod (pymod start_angle 360 + span_angle) 360 + 360
        else pymod (pymod start_angle 360 + span_angle) 360) ∧
    (normalize_arc_angles start_angle span_angle).1 <
      (normalize_arc_angles start_angle span_angle).2 := by
  obtain ⟨hpos, hle⟩ := h
  have hb : (0 : ℝ) < 360 := by norm_num
  have hs0 : 0 ≤ pymod start_angle 360 := pymod_nonneg _ _ hb
  have hs1 : pymod start_angle 360 < 360 := pymod_lt _ _ hb
  have hspan : pymod span_angle 360 = span_angle :=
    pymod_eq_self _ _ hb hpos.le (by linarith)
  have hunfold : normalize_arc_angles start_angle span_angle =
      (pymod start_angle 360,
        if pymod (pymod start_angle 360 + span_angle) 360 < pymod start_angle 360
        then pymod (pymod start_angle 360 + span_angle) 360 + 360
        else pymod (pymod start_angle 360 + span_angle) 360) := by
    unfold normalize_arc_angles
    rw [if_pos hpos.le, hspan]
    by_cases hc : pymod (pymod start_angle 360 + span_angle) 360 < pymod start_angle 360
    · rw [if_pos hc, if_pos hc]
    · rw [if_neg hc, if_neg hc]
  by_cases hcase : pymod start_angle 360 + span_angle < 360
  · have hnaive : pymod (pymod start_angle 360 + span_angle) 360 =
        pymod start_angle 360 + span_angle :=
      pymod_eq_self _ _ hb (by linarith) hcase
    have hnlt : ¬ pymod (pymod start_angle 360 + span_angle) 360 < pymod start_angle 360 := by
      rw [hnaive]
      linarith
    have hnle : ¬ pymod (pymod start_angle 360 + span_angle) 360 ≤ pymod start_angle 360 := by
      rw [hnaive]
      push_neg
      linarith
    constructor
    · rw [hunfold, if_neg hnlt, if_neg hnle]
    · rw [hunfold, if_neg hnlt]
      simp only
      rw [hnaive]
      linarith
  · push_neg at hcase
    have hnaive : pymod (pymod start_angle 360 + span_angle) 360 =
        pymod start_angle 360 + span_angle - 360 :=
      pymod_eq_sub _ _ hb hcase (by linarith)
    have hnlt : pymod (pymod start_angle 360 + span_angle) 360 < pymod start_angle 360 := by
      rw [hnaive]
      linarith
    constructor
    · rw [hunfold, if_pos hnlt, if_pos (le_of_lt hnlt)]
    · rw [hunfold, if_pos hnlt]
      simp only
      rw [hnaive]
      linarith

/-- C4 witness: start angle 270 and span 90, where the naive end 0 wraps
and 360 is added. -/
theorem normalize_arc_angles_ccw_witness :
    spec_arc_span (90 : ℝ) ∧
    (normalize_arc_angles 270 90 =
      (pymod 270 360,
        if pymod (pymod 270 360 + 90) 360 ≤ pymod 270 360
        then pymod (pymod 270 360 + 90) 360 + 360
        else pymod (pymod 270 360 + 90) 360) ∧
    (normalize_arc_angles 270 90).1 < (normalize_arc_angles 270 90).2) :=
  ⟨by constructor <;> norm_num,
   normalize_arc_angles_ccw 270 90 (by constructor <;> norm_num)⟩

end Compas2D
